import Mathlib

/-!
# Verification of the clipsmith ingestion pipeline and feed ranking

Shallow embedding of the clipsmith video platform: the asynchronous media
ingestion state machine, the engagement signal aggregator, the feed ranking
engine, and the frontend client helpers (`apiClient`, `sanitizeHtml`,
`VideoCard.handleLike`, `UploadModal`).  The backend pipeline components are
not shipped in the frontend sources, so they are modelled from the design
specification; the frontend helpers are translated from the TypeScript
sources directly.
-/

namespace Clipsmith

/-! ## Ingestion state machine (spec §4.1) -/

/-- VideoAsset lifecycle status (spec §3): single source of truth for
playability. -/
inductive VStatus where
  | pending
  | processing
  | ready
  | failed
deriving DecidableEq, Repr

/-- Modelled from the spec: the durable VideoAsset record owned by the
Ingestion State Machine (spec §3).  Identity and creator metadata are not
needed by the claims, so only the status and the derived fields appear. -/
structure VideoAsset where
  status : VStatus
  playableKey : Option Nat
  thumbnailKey : Option Nat
  durationSeconds : Option Nat
  failureReason : Option String
deriving DecidableEq, Repr

/-- `READY` and `FAILED` are the terminal statuses of a submission
(spec §4.1). -/
def isTerminal : VStatus → Bool
  | .ready => true
  | .failed => true
  | _ => false

/-- Modelled from the spec: `on_job_accepted(video_id)` transitions
`PENDING → PROCESSING`; no-op if already `PROCESSING`, and the compare-and-set
guard (spec §5) makes it a no-op on any other state as well. -/
def on_job_accepted (a : VideoAsset) : VideoAsset :=
  if a.status = .pending then { a with status := .processing } else a

/-- Modelled from the spec: `on_job_succeeded(video_id, playable_key,
thumbnail_key, duration)` transitions `PROCESSING → READY` and sets the
derived fields atomically; rejected (no-op) if the asset is not in
`PROCESSING`, in particular if it is already terminal (spec §4.1). -/
def on_job_succeeded (a : VideoAsset) (playable thumbnail duration : Nat) :
    VideoAsset :=
  if a.status = .processing then
    { a with
      status := .ready
      playableKey := some playable
      thumbnailKey := some thumbnail
      durationSeconds := some duration }
  else a

/-- Modelled from the spec: `on_job_failed(video_id, reason, attempt_count)`.
If the asset is already terminal the late callback is ignored (spec §7,
DuplicateCallbackError); otherwise, when `attempt_count < max_retries` the job
is re-enqueued and the asset remains as it was, and when retries are exhausted
the asset transitions to `FAILED` recording the reason. -/
def on_job_failed (a : VideoAsset) (reason : String)
    (attemptCount maxRetries : Nat) : VideoAsset :=
  if isTerminal a.status then a
  else if attemptCount < maxRetries then a
  else { a with status := .failed, failureReason := some reason }

/-- Modelled from the spec: an explicit re-submission resets a `FAILED` asset
to `PENDING` and clears the failure metadata and derived fields (spec §3). -/
def resubmit (a : VideoAsset) : VideoAsset :=
  if a.status = .failed then
    { status := .pending
      playableKey := none
      thumbnailKey := none
      durationSeconds := none
      failureReason := none }
  else a

/-- The events that may reach a VideoAsset record after its creation. -/
inductive IngestEvent where
  | accepted
  | succeeded (playable thumbnail duration : Nat)
  | failed (reason : String) (attemptCount maxRetries : Nat)
  | resubmitted
deriving DecidableEq, Repr

/-- Dispatch one ingestion event to the state machine handlers. -/
def applyIngest (a : VideoAsset) : IngestEvent → VideoAsset
  | .accepted => on_job_accepted a
  | .succeeded p t d => on_job_succeeded a p t d
  | .failed r att mx => on_job_failed a r att mx
  | .resubmitted => resubmit a

/-- Modelled from the spec: `submit` creates the record in `PENDING` with all
derived fields null (spec §4.1). -/
def initialAsset : VideoAsset :=
  { status := .pending
    playableKey := none
    thumbnailKey := none
    durationSeconds := none
    failureReason := none }

/-- The client-facing projection returned by the status query (spec §6):
status, url if READY (the signed url is modelled by the playable storage
key), thumbnail if available, duration. -/
structure VideoProjection where
  status : VStatus
  url : Option Nat
  thumbnailUrl : Option Nat
  duration : Option Nat
deriving DecidableEq, Repr

/-- Modelled from the spec: the status query projects the current VideoAsset
without re-triggering work (spec §6). -/
def statusQuery (a : VideoAsset) : VideoProjection :=
  { status := a.status
    url := a.playableKey
    thumbnailUrl := a.thumbnailKey
    duration := a.durationSeconds }

/-- The playability invariant (spec §3): the playable storage key is non-null
iff the status is `READY`. -/
def playableInv (a : VideoAsset) : Prop :=
  a.playableKey.isSome = true ↔ a.status = .ready

lemma playableInv_initial : playableInv initialAsset := by
  simp [playableInv, initialAsset]

lemma playableInv_applyIngest {a : VideoAsset} (h : playableInv a)
    (e : IngestEvent) : playableInv (applyIngest a e) := by
  obtain ⟨st, pk, tk, dk, fr⟩ := a
  cases e with
  | accepted =>
    cases st <;>
      simp_all [playableInv, applyIngest, on_job_accepted]
  | succeeded p t d =>
    cases st <;>
      simp_all [playableInv, applyIngest, on_job_succeeded]
  | failed r att mx =>
    cases st <;>
      simp_all [playableInv, applyIngest, on_job_failed, isTerminal] <;>
      split <;> simp_all
  | resubmitted =>
    cases st <;>
      simp_all [playableInv, applyIngest, resubmit]

lemma playableInv_foldl :
    ∀ (evs : List IngestEvent) (a : VideoAsset), playableInv a →
      playableInv (evs.foldl applyIngest a)
  | [], _, h => h
  | e :: evs, a, h =>
    playableInv_foldl evs (applyIngest a e) (playableInv_applyIngest h e)

/-! ## Client status poller (frontend UploadModal, src/unnamed/part_003) -/

/-- One tick of the UploadModal polling effect after a successful status
fetch: given the reported status string, returns whether polling continues
and the new local `processingStatus`.  `READY` stops polling (status
`ready`), `FAILED` stops polling (status `failed`), anything else keeps
polling (status `polling`). -/
def pollTransition (status : String) : Bool × String :=
  if status = "READY" then (false, "ready")
  else if status = "FAILED" then (false, "failed")
  else (true, "polling")

/-! ## UploadModal.handleSubmit (frontend, src/unnamed/part_003) -/

/-- An HTTP request issued by the upload form. -/
structure UploadRequest where
  method : String
  path : String
deriving DecidableEq, Repr

/-- The requests issued by one invocation of `UploadModal.handleSubmit`:
nothing when file or title is missing (the early return), otherwise exactly
one `POST /videos/` upload request. -/
def handleSubmitRequests (hasFile hasTitle : Bool) : List UploadRequest :=
  if hasFile && hasTitle then [⟨"POST", "/videos/"⟩] else []

/-! ## Atomic submission (spec §4.1) -/

/-- The durable stores touched by `submit`: raw blobs in the Asset Store,
VideoAsset records, and enqueued jobs, each keyed by the upload id. -/
structure PipelineStore where
  rawBlobs : List Nat
  assetRecords : List Nat
  enqueuedJobs : List Nat
deriving DecidableEq, Repr

/-- A fault-injection plan for one attempt of the submission sequence. -/
structure FaultPlan where
  storeFails : Bool
  recordFails : Bool
  enqueueFails : Bool
deriving DecidableEq, Repr

/-- Modelled from the spec: one attempt of the atomic submission sequence
(store → record → enqueue) with compensating cleanup if any step fails
(spec §4.1) — a failed attempt returns the store exactly as it found it,
never leaving a partial write behind. -/
def submitAttempt (st : PipelineStore) (u : Nat) (f : FaultPlan) :
    PipelineStore × Bool :=
  if f.storeFails then (st, false)
  else
    let st1 : PipelineStore := { st with rawBlobs := u :: st.rawBlobs }
    if f.recordFails then (st, false)
    else
      let st2 : PipelineStore := { st1 with assetRecords := u :: st1.assetRecords }
      if f.enqueueFails then (st, false)
      else ({ st2 with enqueuedJobs := u :: st2.enqueuedJobs }, true)

/-- Modelled from the spec: `submit(raw_bytes, metadata)` retried across a
fault schedule; each failed attempt is fully compensated and retried, and
the final attempt (an empty remaining schedule) succeeds — never
retry-by-duplication (spec §4.1, §8). -/
def submit (u : Nat) : PipelineStore → List FaultPlan → PipelineStore
  | st, [] => (submitAttempt st u { storeFails := false, recordFails := false, enqueueFails := false }).1
  | st, f :: fs =>
    let r := submitAttempt st u f
    if r.2 then r.1 else submit u r.1 fs

lemma submitAttempt_failed {st : PipelineStore} {u : Nat} {f : FaultPlan}
    (h : (submitAttempt st u f).2 = false) : (submitAttempt st u f).1 = st := by
  obtain ⟨s, r, e⟩ := f
  cases s <;> cases r <;> cases e <;> simp_all [submitAttempt]

lemma submitAttempt_success {st : PipelineStore} {u : Nat} {f : FaultPlan}
    (h : (submitAttempt st u f).2 = true) :
    (submitAttempt st u f).1 =
      { rawBlobs := u :: st.rawBlobs
        assetRecords := u :: st.assetRecords
        enqueuedJobs := u :: st.enqueuedJobs } := by
  obtain ⟨s, r, e⟩ := f
  cases s <;> cases r <;> cases e <;> simp_all [submitAttempt]

lemma submit_eq :
    ∀ (fs : List FaultPlan) (st : PipelineStore) (u : Nat),
      submit u st fs =
        { rawBlobs := u :: st.rawBlobs
          assetRecords := u :: st.assetRecords
          enqueuedJobs := u :: st.enqueuedJobs }
  | [], st, u => by
    simpa [submit] using @submitAttempt_success st u
      { storeFails := false, recordFails := false, enqueueFails := false }
      (by simp [submitAttempt])
  | f :: fs, st, u => by
    simp only [submit]
    by_cases h : (submitAttempt st u f).2 = true
    · simpa [h] using submitAttempt_success h
    · have hb : (submitAttempt st u f).2 = false := by
        simpa using h
      simp [hb, submitAttempt_failed hb, submit_eq fs st u]

/-! ## Signal aggregator: like events (spec §4.3, §6) -/

/-- Modelled from the spec: the aggregator state for one video — the set of
users who currently like it and the durable `likes` counter updated by
`increment(video_id, like, ±1)` calls. -/
structure AggState where
  likers : Finset Nat
  likes : Int
deriving DecidableEq

/-- A like-kind interaction event, tagged with the acting user. -/
inductive LikeEvent where
  | like (u : Nat)
  | unlike (u : Nat)
deriving DecidableEq, Repr

/-- Modelled from the spec: like is idempotent per (user, video) — a like
from a user who already likes the video is a no-op, otherwise it records the
user and increments the counter by exactly 1; an unlike from a user who does
not like the video is a no-op, otherwise it removes the user and decrements
the counter by exactly 1 (spec §6). -/
def applyEvent (s : AggState) : LikeEvent → AggState
  | .like u =>
    if u ∈ s.likers then s
    else { likers := insert u s.likers, likes := s.likes + 1 }
  | .unlike u =>
    if u ∈ s.likers then { likers := s.likers.erase u, likes := s.likes - 1 }
    else s

/-- The aggregator state for a fresh video: nobody likes it, counter zero. -/
def initAgg : AggState := { likers := ∅, likes := 0 }

/-- Fold a sequence of like/unlike events over the fresh aggregator state. -/
def applyEvents (evs : List LikeEvent) : AggState :=
  evs.foldl applyEvent initAgg

lemma applyEvent_card {s : AggState} (h : s.likes = (s.likers.card : Int))
    (e : LikeEvent) : (applyEvent s e).likes = ((applyEvent s e).likers.card : Int) := by
  cases e with
  | like u =>
    by_cases hu : u ∈ s.likers
    · simp [applyEvent, hu, h]
    · simp [applyEvent, hu, h, Finset.card_insert_of_not_mem hu]
  | unlike u =>
    by_cases hu : u ∈ s.likers
    · have hpos : 0 < s.likers.card := Finset.card_pos.mpr ⟨u, hu⟩
      simp only [applyEvent, hu, if_pos, h]
      rw [Finset.card_erase_of_mem hu]
      omega
    · simp [applyEvent, hu, h]

lemma applyEvents_card :
    ∀ evs : List LikeEvent,
      (applyEvents evs).likes = (((applyEvents evs).likers.card : Int)) := by
  have aux : ∀ (evs : List LikeEvent) (s : AggState),
      s.likes = (s.likers.card : Int) →
      (evs.foldl applyEvent s).likes = (((evs.foldl applyEvent s).likers.card : Int)) := by
    intro evs
    induction evs with
    | nil => intro s h; exact h
    | cons e evs ih => intro s h; exact ih _ (applyEvent_card h e)
  intro evs
  exact aux evs initAgg (by simp [initAgg])

/-! ## VideoCard like button (frontend video-card.tsx) -/

/-- Local VideoCard state: the displayed `likes` counter and the `isLiked`
flag. -/
structure CardState where
  likes : Int
  isLiked : Bool
deriving DecidableEq, Repr

/-- `VideoCard.handleLike` after the server replied with `is_liked`: the
displayed count becomes `prev + 1` when the toggle landed on liked and
`prev - 1` when it landed on not-liked, and the flag takes the server's
value (video-card.tsx lines 40–51). -/
def handleLike (st : CardState) (resIsLiked : Bool) : CardState :=
  { likes := if resIsLiked then st.likes + 1 else st.likes - 1
    isLiked := resIsLiked }

/-- One full client toggle: the backend like endpoint toggles the user's
like, replying `is_liked = !previous`, and `handleLike` applies that reply. -/
def clientToggle (st : CardState) : CardState :=
  handleLike st (!st.isLiked)

/-- Iterate `clientToggle` a number of times. -/
def applyToggles : Nat → CardState → CardState
  | 0, st => st
  | n + 1, st => applyToggles n (clientToggle st)

/-- The VideoCard state as initialized from server data: `likes` from the
video DTO counter and `isLiked` from the like-status endpoint. -/
def clientInit (s : AggState) (u : Nat) : CardState :=
  { likes := s.likes, isLiked := decide (u ∈ s.likers) }

/-- The client display invariant: when the card shows a liked state the
displayed counter is at least 1, otherwise at least 0. -/
def cardInv (st : CardState) : Prop :=
  (if st.isLiked then 1 else 0) ≤ st.likes

lemma cardInv_clientToggle {st : CardState} (h : cardInv st) :
    cardInv (clientToggle st) := by
  cases hb : st.isLiked <;>
    simp_all [cardInv, clientToggle, handleLike]

lemma cardInv_applyToggles :
    ∀ (n : Nat) {st : CardState}, cardInv st → cardInv (applyToggles n st)
  | 0, _, h => h
  | n + 1, _, h => cardInv_applyToggles n (cardInv_clientToggle h)

lemma cardInv_clientInit (evs : List LikeEvent) (u : Nat) :
    cardInv (clientInit (applyEvents evs) u) := by
  have hcard := applyEvents_card evs
  unfold cardInv clientInit
  rw [hcard]
  by_cases hu : u ∈ (applyEvents evs).likers
  · have hpos : 0 < (applyEvents evs).likers.card := Finset.card_pos.mpr ⟨u, hu⟩
    simp only [hu, decide_true_eq_true, if_true]
    exact_mod_cast hpos
  · simp only [hu, decide_false_eq_false, if_false]
    positivity

/-! ## Feed ranking engine (spec §4.4) -/

/-- The per-video engagement snapshot consumed by the ranking engine
(spec §3, EngagementCounters). -/
structure EngagementSnapshot where
  views : Nat
  likes : Nat
  comments : Nat
  shares : Nat
deriving DecidableEq, Repr

/-- Modelled from the spec: the tunable ranking configuration — the three
score weights and the recency half-life (spec §4.4, §9). -/
structure RankConfig where
  wEngagement : ℚ
  wRecency : ℚ
  wAffinity : ℚ
  halfLifeSeconds : ℚ
deriving DecidableEq, Repr

/-- Modelled from the spec: the fixed snapshot a ranking request reads —
per-candidate age, engagement counters and the viewer's precomputed creator
affinity, all keyed by video id (spec §3, FeedCandidate). -/
structure RankSnapshot where
  ageSeconds : Nat → Nat
  engagement : Nat → EngagementSnapshot
  creatorAffinity : Nat → ℚ

/-- Modelled from the spec: engagement signals combined with fixed relative
weights, comments weighing more than views (spec §4.4). -/
def engagementRaw (e : EngagementSnapshot) : ℚ :=
  e.views + 2 * e.shares + 3 * e.likes + 5 * e.comments

/-- Smallest raw engagement over the candidate pool (min-max scaling base). -/
def poolMin (snap : RankSnapshot) (cs : List Nat) : ℚ :=
  (cs.map fun i => engagementRaw (snap.engagement i)).foldr min 0

/-- Largest raw engagement over the candidate pool (min-max scaling base). -/
def poolMax (snap : RankSnapshot) (cs : List Nat) : ℚ :=
  (cs.map fun i => engagementRaw (snap.engagement i)).foldr max 0

/-- Min-max scaling of a raw engagement value against the pool distribution
(spec §4.4); degenerate pools scale to 0. -/
def minMaxScale (lo hi x : ℚ) : ℚ :=
  if lo < hi then (x - lo) / (hi - lo) else 0

/-- Modelled from the spec: the recency decay term.  The spec's
`exp(-age_seconds / half_life_seconds)` is represented by the rational
surrogate `half_life / (half_life + age)`, which shares the properties the
claims rely on: it is determined by the age alone and strictly decreasing in
it. -/
def decayFactor (cfg : RankConfig) (age : Nat) : ℚ :=
  cfg.halfLifeSeconds / (cfg.halfLifeSeconds + age)

/-- Modelled from the spec: the per-candidate score —
`w_engagement * normalized(engagement) + w_recency * decay(age) +
w_affinity * creator_affinity` (spec §4.4). -/
def scoreOn (cfg : RankConfig) (snap : RankSnapshot) (cs : List Nat)
    (i : Nat) : ℚ :=
  cfg.wEngagement *
      minMaxScale (poolMin snap cs) (poolMax snap cs)
        (engagementRaw (snap.engagement i))
    + cfg.wRecency * decayFactor cfg (snap.ageSeconds i)
    + cfg.wAffinity * snap.creatorAffinity i

/-- Modelled from the spec: the ranking order — higher score first, ties
broken by video id for determinism (spec §4.4). -/
def feedRel (score : Nat → ℚ) (a b : Nat) : Prop :=
  score b < score a ∨ (score a = score b ∧ a ≤ b)

instance feedRelDecidable (score : Nat → ℚ) : DecidableRel (feedRel score) :=
  fun a b =>
    inferInstanceAs (Decidable (score b < score a ∨ (score a = score b ∧ a ≤ b)))

instance feedRelTotal (score : Nat → ℚ) : IsTotal Nat (feedRel score) where
  total a b := by
    rcases lt_trichotomy (score a) (score b) with h | h | h
    · exact Or.inr (Or.inl h)
    · rcases le_total a b with hab | hba
      · exact Or.inl (Or.inr ⟨h, hab⟩)
      · exact Or.inr (Or.inr ⟨h.symm, hba⟩)
    · exact Or.inl (Or.inl h)

instance feedRelTrans (score : Nat → ℚ) : IsTrans Nat (feedRel score) where
  trans a b c hab hbc := by
    rcases hab with h1 | ⟨e1, le1⟩
    · rcases hbc with h2 | ⟨e2, _⟩
      · exact Or.inl (h2.trans h1)
      · exact Or.inl (e2 ▸ h1)
    · rcases hbc with h2 | ⟨e2, le2⟩
      · exact Or.inl (e1 ▸ h2)
      · exact Or.inr ⟨e1.trans e2, le1.trans le2⟩

instance feedRelAntisymm (score : Nat → ℚ) : IsAntisymm Nat (feedRel score) where
  antisymm a b hab hba := by
    rcases hab with h1 | ⟨e1, le1⟩
    · rcases hba with h2 | ⟨e2, _⟩
      · exact absurd h1 (lt_asymm h2)
      · exact absurd h1 (e2 ▸ lt_irrefl _)
    · rcases hba with h2 | ⟨_, le2⟩
      · exact absurd h2 (e1 ▸ lt_irrefl _)
      · exact Nat.le_antisymm le1 le2

/-- Modelled from the spec: the ranking call — order the candidate pool by
descending score with ties broken by video id (spec §4.4). -/
def rankFeed (cfg : RankConfig) (snap : RankSnapshot) (cs : List Nat) :
    List Nat :=
  List.insertionSort (feedRel (scoreOn cfg snap cs)) cs

/-- Modelled from the spec: the snapshot as actually fetched, where the
per-candidate affinity or engagement data may be unavailable (spec §4.4
failure policy). -/
structure PartialRankData where
  ageSeconds : Nat → Nat
  engagement : Nat → Option EngagementSnapshot
  creatorAffinity : Nat → Option ℚ

/-- The neutral engagement snapshot used when signal data is missing. -/
def neutralEngagement : EngagementSnapshot :=
  { views := 0, likes := 0, comments := 0, shares := 0 }

/-- Modelled from the spec: missing per-candidate data degrades to a
neutral/zero contribution instead of excluding the candidate (spec §4.4). -/
def PartialRankData.toSnapshot (p : PartialRankData) : RankSnapshot :=
  { ageSeconds := p.ageSeconds
    engagement := fun i => (p.engagement i).getD neutralEngagement
    creatorAffinity := fun i => (p.creatorAffinity i).getD 0 }

/-- Modelled from the spec: the feed query — when the candidate pool itself
cannot be fetched the request fails with an explicit service-unavailable
error, otherwise the fetched pool is ranked (with per-candidate degradation)
and returned successfully (spec §7, RankingDataUnavailable). -/
def feedQuery (cfg : RankConfig) (p : PartialRankData)
    (pool : Option (List Nat)) : Except String (List Nat) :=
  match pool with
  | none => Except.error "service_unavailable"
  | some cs => Except.ok (rankFeed cfg p.toSnapshot cs)

/-! ## apiClient (frontend lib/api/client.ts) -/

/-- A JSON value, as produced by a successful `response.json()`. -/
inductive Json where
  | null
  | bool (b : Bool)
  | num (n : Int)
  | str (s : String)
  | arr (xs : List Json)
  | obj (fields : List (String × Json))

/-- The `error.detail` property access in `apiClient`: the `detail` field of
an object body; on any non-object value the access yields `undefined`,
modelled as `none`. -/
def detailField : Json → Option Json
  | .obj fields => fields.lookup "detail"
  | _ => none

/-- JavaScript truthiness of a JSON value, as tested by
`error.detail || ...`: `null`, `false`, `0` and the empty string are falsy,
every other value (including empty objects and arrays) is truthy. -/
def jsTruthy : Json → Bool
  | .null => false
  | .bool b => b
  | .num n => n != 0
  | .str s => s != ""
  | .arr _ => true
  | .obj _ => true

mutual

/-- JavaScript string coercion `String(value)` of a JSON value, as performed
by `new Error(value)` on a non-string argument: booleans and numbers print
themselves, objects print `[object Object]`, arrays join their elements with
commas (with `null` elements printed empty). -/
def jsToString : Json → String
  | .null => "null"
  | .bool b => if b then "true" else "false"
  | .num n => toString n
  | .str s => s
  | .obj _ => "[object Object]"
  | .arr xs => jsArrayToString xs

/-- `Array.prototype.toString`: the comma-join of the elements' coercions,
with `null` elements contributing the empty string. -/
def jsArrayToString : List Json → String
  | [] => ""
  | [Json.null] => ""
  | [x] => jsToString x
  | Json.null :: rest => "," ++ jsArrayToString rest
  | x :: rest => jsToString x ++ "," ++ jsArrayToString rest

end

/-- An HTTP response as `apiClient` observes it: the status code and the
parsed JSON body (`none` when the body is not valid JSON, in which case
`response.json()` rejects). -/
structure FetchResponse where
  status : Nat
  body : Option Json

/-- `response.ok` of the fetch API: status in the 200–299 range. -/
def respOk (status : Nat) : Bool :=
  decide (200 ≤ status) && decide (status < 300)

/-- The auth store state relevant to `apiClient`: the authenticated user, if
any (auth-store.ts). -/
structure AuthStoreState where
  user : Option Nat
deriving DecidableEq, Repr

/-- `useAuthStore.logout`: clears the authenticated user
(auth-store.ts lines 23–33). -/
def logout (_ : AuthStoreState) : AuthStoreState :=
  { user := none }

/-- What one `apiClient` call does: resolve with the parsed body, or throw an
`Error` with a message. -/
inductive ApiOutcome where
  | success (body : Json)
  | thrown (message : String)

/-- The fallback error message built from the status code
(client.ts line 28). -/
def statusMsg (status : Nat) : String :=
  "Request failed with status " ++ toString status

/-- The message thrown for a non-ok, non-401 response (client.ts lines
26–29): the body's `detail` whenever it is truthy, coerced to a string by
the `Error` constructor — when the body does not parse, the `.catch`
fallback body carrying `detail = "API request failed"` stands in — and
otherwise the status-code message selected by `error.detail || ...`. -/
def errorMessage (r : FetchResponse) : String :=
  let errBody := r.body.getD (Json.obj [("detail", Json.str "API request failed")])
  match detailField errBody with
  | some d => if jsTruthy d then jsToString d else statusMsg r.status
  | none => statusMsg r.status

/-- `apiClient` (client.ts lines 9–32), as a function of the auth-store state
and the observed response: a 401 logs the user out and throws the fixed
session-expired message; any other ok response resolves with its parsed JSON
body (an unparseable ok body makes `response.json()` reject); any other
non-ok response throws an `Error` carrying `errorMessage` — the string form
of the body's truthy `detail` when available, else the status-code
fallback. -/
def apiClient (auth : AuthStoreState) (r : FetchResponse) :
    AuthStoreState × ApiOutcome :=
  if r.status = 401 then
    (logout auth, .thrown "Session expired. Please log in again.")
  else if respOk r.status then
    match r.body with
    | some j => (auth, .success j)
    | none => (auth, .thrown "Unexpected end of JSON input")
  else
    (auth, .thrown (errorMessage r))

/-! ## sanitizeHtml (frontend lib/utils/sanitize.ts) -/

/-- A parsed HTML node, the shape DOMPurify operates on. -/
inductive HtmlNode where
  | text (s : String)
  | element (tag : String) (attrs : List (String × String))
      (children : List HtmlNode)

/-- Whether a node is plain text (carries no tag and no attributes). -/
def HtmlNode.isText : HtmlNode → Bool
  | .text _ => true
  | .element _ _ _ => false

/-- Model of the `DOMPurify.sanitize` contract used by sanitize.ts: an
element is kept only when its tag is in `ALLOWED_TAGS`, its attributes are
filtered by `ALLOWED_ATTR`, and a removed element's tag and attributes are
dropped while its (sanitized) content is kept. -/
def sanitizeNodes (allowedTags allowedAttrs : List String) :
    List HtmlNode → List HtmlNode
  | [] => []
  | .text s :: rest => .text s :: sanitizeNodes allowedTags allowedAttrs rest
  | .element tag attrs children :: rest =>
    if tag ∈ allowedTags then
      .element tag (attrs.filter fun a => a.1 ∈ allowedAttrs)
          (sanitizeNodes allowedTags allowedAttrs children)
        :: sanitizeNodes allowedTags allowedAttrs rest
    else
      sanitizeNodes allowedTags allowedAttrs children
        ++ sanitizeNodes allowedTags allowedAttrs rest

/-- `sanitizeHtml` (sanitize.ts lines 3–8): DOMPurify with empty
`ALLOWED_TAGS` and `ALLOWED_ATTR`. -/
def sanitizeHtml (doc : List HtmlNode) : List HtmlNode :=
  sanitizeNodes [] [] doc

/-! ## Claim theorems -/

/-- C1: one `submit()` call leaves exactly one new VideoAsset record, one
enqueued job and one stored raw blob for the upload, regardless of
fault-injected retries inside `submit` itself; and one invocation of the
client `handleSubmit` issues at most one request, namely exactly one
`POST /videos/` when file and title are present. -/
theorem single_submission_invariant (st : PipelineStore) (u : Nat)
    (fs : List FaultPlan) (hasFile hasTitle : Bool) :
    (submit u st fs).assetRecords.count u = st.assetRecords.count u + 1
    ∧ (submit u st fs).enqueuedJobs.count u = st.enqueuedJobs.count u + 1
    ∧ (submit u st fs).rawBlobs.count u = st.rawBlobs.count u + 1
    ∧ (handleSubmitRequests hasFile hasTitle).length ≤ 1
    ∧ handleSubmitRequests true true = [{ method := "POST", path := "/videos/" }] := by
  rw [submit_eq fs st u]
  refine ⟨by simp, by simp, by simp, ?_, by simp [handleSubmitRequests]⟩
  cases hasFile <;> cases hasTitle <;> simp [handleSubmitRequests]

/-- C2: on a terminal (`READY` or `FAILED`) asset, every stale callback —
`on_job_accepted`, `on_job_succeeded`, `on_job_failed` — leaves the status
and all derived fields unchanged; and the client status poller keeps polling
iff the observed status is neither `READY` nor `FAILED`. -/
theorem terminal_state_idempotency (a : VideoAsset) (p t d att mx : Nat)
    (r : String) (h : isTerminal a.status = true) :
    on_job_accepted a = a
    ∧ on_job_succeeded a p t d = a
    ∧ on_job_failed a r att mx = a
    ∧ ∀ s : String, (pollTransition s).1 = false ↔ (s = "READY" ∨ s = "FAILED") := by
  obtain ⟨st, pk, tk, dk, fr⟩ := a
  refine ⟨?_, ?_, ?_, ?_⟩
  · cases st <;> simp_all [isTerminal, on_job_accepted]
  · cases st <;> simp_all [isTerminal, on_job_succeeded]
  · cases st <;> simp_all [isTerminal, on_job_failed]
  · intro s
    unfold pollTransition
    split_ifs with h1 h2 <;> simp_all

/-- A concrete terminal asset used to witness the terminal-state guard. -/
def readyAssetEx : VideoAsset :=
  { status := .ready
    playableKey := some 1
    thumbnailKey := some 2
    durationSeconds := some 42
    failureReason := none }

theorem terminal_state_idempotency_witness :
    on_job_accepted readyAssetEx = readyAssetEx
    ∧ on_job_succeeded readyAssetEx 9 9 9 = readyAssetEx
    ∧ on_job_failed readyAssetEx "late" 0 3 = readyAssetEx := by
  have h := terminal_state_idempotency readyAssetEx 9 9 9 0 3 "late" (by decide)
  exact ⟨h.1, h.2.1, h.2.2.1⟩

/-- C3: along every sequence of ingestion events starting from a freshly
submitted asset, the playable storage key is non-null iff the status is
`READY`; consequently every status-query projection carries a non-null url
iff its status is `READY`. -/
theorem playable_key_iff_ready (evs : List IngestEvent) :
    ((evs.foldl applyIngest initialAsset).playableKey.isSome = true ↔
      (evs.foldl applyIngest initialAsset).status = VStatus.ready)
    ∧ ((statusQuery (evs.foldl applyIngest initialAsset)).url.isSome = true ↔
      (statusQuery (evs.foldl applyIngest initialAsset)).status = VStatus.ready) := by
  have h := playableInv_foldl evs initialAsset playableInv_initial
  exact ⟨h, by simpa [statusQuery] using h⟩

/-- C4: a like toggle-on followed immediately by a toggle-off returns the
displayed likes counter exactly to its prior value; each toggle-off
decreases it by exactly 1 and each toggle-on increases it by exactly 1; and
the aggregator's like interaction is idempotent per (user, video). -/
theorem like_toggle_roundtrip (st : CardState) (ag : AggState) (u : Nat) :
    (handleLike (handleLike st true) false).likes = st.likes
    ∧ (handleLike st false).likes = st.likes - 1
    ∧ (handleLike st true).likes = st.likes + 1
    ∧ (clientToggle (clientToggle st)).likes = st.likes
    ∧ applyEvent (applyEvent ag (.like u)) (.like u) = applyEvent ag (.like u) := by
  refine ⟨by simp [handleLike], by simp [handleLike], by simp [handleLike], ?_, ?_⟩
  · cases hb : st.isLiked <;> simp [clientToggle, handleLike, hb]
  · by_cases hu : u ∈ ag.likers
    · simp [applyEvent, hu]
    · simp [applyEvent, hu, Finset.mem_insert_self]

/-- C5: for every sequence of like/unlike events the aggregator's likes
counter is non-negative, and the client-displayed count — initialized from
the aggregator and driven by any number of like toggles — is non-negative as
well. -/
theorem likes_counter_nonneg (evs : List LikeEvent) (u : Nat) (n : Nat) :
    0 ≤ (applyEvents evs).likes
    ∧ 0 ≤ (applyToggles n (clientInit (applyEvents evs) u)).likes := by
  constructor
  · rw [applyEvents_card evs]
    positivity
  · have h := cardInv_applyToggles n (cardInv_clientInit evs u)
    unfold cardInv at h
    have h0 : (0 : Int) ≤
        if (applyToggles n (clientInit (applyEvents evs) u)).isLiked then 1 else 0 := by
      split <;> norm_num
    exact le_trans h0 h

/-- C6: for a fixed snapshot the ranking output is a permutation of the
candidate pool, it is sorted by descending score with ties broken by video
id, and it is the unique such list — so any two ranking calls over the same
snapshot (in particular, calls re-reading the pool in any order) produce
identical ordered output, with no hidden randomness. -/
theorem ranking_deterministic (cfg : RankConfig) (snap : RankSnapshot)
    (cs : List Nat) :
    (rankFeed cfg snap cs).Perm cs
    ∧ List.Sorted (feedRel (scoreOn cfg snap cs)) (rankFeed cfg snap cs)
    ∧ ∀ l : List Nat, l.Perm cs →
        List.Sorted (feedRel (scoreOn cfg snap cs)) l → l = rankFeed cfg snap cs := by
  refine ⟨List.perm_insertionSort _ _, List.sorted_insertionSort _ _, ?_⟩
  intro l hp hs
  exact List.eq_of_perm_of_sorted (hp.trans (List.perm_insertionSort _ _).symm)
    hs (List.sorted_insertionSort _ _)

/-- A concrete ranking configuration for the witnesses. -/
def cfgEx : RankConfig :=
  { wEngagement := 1, wRecency := 1, wAffinity := 1, halfLifeSeconds := 24 }

/-- A concrete snapshot for the witnesses: age equals the video id, neutral
engagement, zero affinity. -/
def snapEx : RankSnapshot :=
  { ageSeconds := fun i => i
    engagement := fun _ => neutralEngagement
    creatorAffinity := fun _ => 0 }

theorem ranking_deterministic_witness :
    ([1, 2] : List Nat) = rankFeed cfgEx snapEx [2, 1] :=
  (ranking_deterministic cfgEx snapEx [2, 1]).2.2 [1, 2] (by decide)
    (by
      norm_num [List.sorted_cons, feedRel, scoreOn, cfgEx, snapEx, minMaxScale,
        poolMin, poolMax, engagementRaw, neutralEngagement, decayFactor])

/-- C7: holding engagement and affinity fixed while only the age differs,
with a positive recency weight and half-life, the older candidate scores
strictly lower than the newer one and is ranked strictly after it — the
recency term is strictly decreasing in age. -/
theorem decay_monotonicity (cfg : RankConfig) (snap : RankSnapshot)
    (cs : List Nat) (i j : Nat)
    (heng : snap.engagement i = snap.engagement j)
    (haff : snap.creatorAffinity i = snap.creatorAffinity j)
    (hage : snap.ageSeconds i < snap.ageSeconds j)
    (hw : 0 < cfg.wRecency) (hhl : 0 < cfg.halfLifeSeconds) :
    scoreOn cfg snap cs j < scoreOn cfg snap cs i
    ∧ feedRel (scoreOn cfg snap cs) i j
    ∧ decayFactor cfg (snap.ageSeconds j) < decayFactor cfg (snap.ageSeconds i) := by
  have hi : (0 : ℚ) < cfg.halfLifeSeconds + (snap.ageSeconds i : ℚ) := by
    have : (0 : ℚ) ≤ (snap.ageSeconds i : ℚ) := by positivity
    linarith
  have hj : (0 : ℚ) < cfg.halfLifeSeconds + (snap.ageSeconds j : ℚ) := by
    have : (0 : ℚ) ≤ (snap.ageSeconds j : ℚ) := by positivity
    linarith
  have hcast : ((snap.ageSeconds i : ℚ)) < (snap.ageSeconds j : ℚ) := by
    exact_mod_cast hage
  have hdec : decayFactor cfg (snap.ageSeconds j) < decayFactor cfg (snap.ageSeconds i) := by
    unfold decayFactor
    exact (div_lt_div_iff_of_pos_left hhl hj hi).mpr (by linarith)
  have hmul := mul_lt_mul_of_pos_left hdec hw
  have hscore : scoreOn cfg snap cs j < scoreOn cfg snap cs i := by
    unfold scoreOn
    rw [heng, haff]
    linarith
  exact ⟨hscore, Or.inl hscore, hdec⟩

theorem decay_monotonicity_witness :
    scoreOn cfgEx snapEx [0, 1] 1 < scoreOn cfgEx snapEx [0, 1] 0
    ∧ feedRel (scoreOn cfgEx snapEx [0, 1]) 0 1
    ∧ decayFactor cfgEx (snapEx.ageSeconds 1) < decayFactor cfgEx (snapEx.ageSeconds 0) :=
  decay_monotonicity cfgEx snapEx [0, 1] 0 1 rfl rfl (by decide)
    (by norm_num [cfgEx]) (by norm_num [cfgEx])

/-- C8: a feed query whose candidate pool cannot be fetched returns the
explicit service-unavailable error, never an empty-but-successful page; a
fetched pool always ranks successfully, no candidate is dropped (the output
is a permutation of the pool), and a candidate with missing affinity or
signal data is scored with the neutral/zero contribution. -/
theorem feed_failure_policy (cfg : RankConfig) (p : PartialRankData)
    (cs : List Nat) (i j : Nat)
    (haff : p.creatorAffinity i = none)
    (heng : p.engagement j = none) :
    feedQuery cfg p none = Except.error "service_unavailable"
    ∧ feedQuery cfg p (some cs) = Except.ok (rankFeed cfg p.toSnapshot cs)
    ∧ (rankFeed cfg p.toSnapshot cs).Perm cs
    ∧ p.toSnapshot.creatorAffinity i = 0
    ∧ p.toSnapshot.engagement j = neutralEngagement := by
  refine ⟨rfl, rfl, List.perm_insertionSort _ _, ?_, ?_⟩
  · simp [PartialRankData.toSnapshot, haff]
  · simp [PartialRankData.toSnapshot, heng]

/-- Concrete partially-available ranking data for the witness: all
per-candidate affinity and signal fetches missing. -/
def partialEx : PartialRankData :=
  { ageSeconds := fun i => i
    engagement := fun _ => none
    creatorAffinity := fun _ => none }

theorem feed_failure_policy_witness :
    feedQuery cfgEx partialEx none = Except.error "service_unavailable"
    ∧ feedQuery cfgEx partialEx (some [3, 4]) =
        Except.ok (rankFeed cfgEx partialEx.toSnapshot [3, 4])
    ∧ (rankFeed cfgEx partialEx.toSnapshot [3, 4]).Perm [3, 4]
    ∧ partialEx.toSnapshot.creatorAffinity 3 = 0
    ∧ partialEx.toSnapshot.engagement 4 = neutralEngagement :=
  feed_failure_policy cfgEx partialEx [3, 4] 3 4 rfl rfl

/-- The 401 response with a `detail` body on which the stated C9 claim
fails. -/
def resp401Ex : FetchResponse :=
  { status := 401
    body := some (Json.obj [("detail", Json.str "Invalid credentials")]) }

/-- C9 counterexample: a 401 response is non-ok and its body's `detail`
message is present, yet `apiClient` throws the fixed session-expired
message, not the body's detail — the stated claim fails at this input. -/
theorem apiClient_detail_counterexample :
    respOk resp401Ex.status = false
    ∧ detailField (Json.obj [("detail", Json.str "Invalid credentials")]) =
        some (Json.str "Invalid credentials")
    ∧ apiClient { user := some 7 } resp401Ex =
        ({ user := none }, ApiOutcome.thrown "Session expired. Please log in again.")
    ∧ "Session expired. Please log in again." ≠ "Invalid credentials" := by
  refine ⟨rfl, rfl, rfl, by decide⟩

/-- C9 (amended): `apiClient` resolves with the parsed JSON body iff the
response is ok (formally: `success j` is returned exactly when the response
is ok and `j` is its parsed body); every non-ok response throws an `Error`,
carrying the body's detail message when present — "present" formalized as
the `detail` field holding a truthy value, thrown as its string form per
`error.detail || ...` and the `Error` constructor — except a 401 response,
which first clears the authenticated user via the auth store's logout and
then throws the fixed session-expired message. -/
theorem apiClient_contract (auth : AuthStoreState) (r : FetchResponse) :
    (r.status = 401 →
      apiClient auth r =
        ({ user := none }, ApiOutcome.thrown "Session expired. Please log in again."))
    ∧ (∀ j, apiClient auth r = (auth, ApiOutcome.success j) ↔
        (respOk r.status = true ∧ r.body = some j))
    ∧ (respOk r.status = false → ∃ m, (apiClient auth r).2 = ApiOutcome.thrown m)
    ∧ (respOk r.status = false → r.status ≠ 401 →
        ∀ j d, r.body = some j → detailField j = some d → jsTruthy d = true →
          apiClient auth r = (auth, ApiOutcome.thrown (jsToString d))) := by
  refine ⟨?_, ?_, ?_, ?_⟩
  · intro h
    simp [apiClient, h, logout]
  · intro j
    constructor
    · intro heq
      by_cases h401 : r.status = 401
      · simp [apiClient, h401, logout] at heq
      · by_cases hok : respOk r.status = true
        · cases hbody : r.body with
          | none => simp [apiClient, h401, hok, hbody] at heq
          | some jb =>
            simp [apiClient, h401, hok, hbody] at heq
            exact ⟨hok, congrArg some heq⟩
        · simp [apiClient, h401, hok] at heq
    · rintro ⟨hok, hbody⟩
      have h401 : r.status ≠ 401 := by
        intro h
        rw [h] at hok
        simp [respOk] at hok
      simp [apiClient, h401, hok, hbody]
  · intro hok
    by_cases h401 : r.status = 401
    · exact ⟨"Session expired. Please log in again.", by simp [apiClient, h401]⟩
    · exact ⟨errorMessage r, by simp [apiClient, h401, hok]⟩
  · intro hok h401 j d hbody hdetail htruthy
    simp [apiClient, errorMessage, h401, hok, hbody, hdetail, htruthy]

theorem apiClient_contract_witness :
    apiClient { user := some 1 }
        { status := 404, body := some (Json.obj [("detail", Json.num 42)]) }
      = ({ user := some 1 }, ApiOutcome.thrown "42") := by
  have h := apiClient_contract { user := some 1 }
    { status := 404, body := some (Json.obj [("detail", Json.num 42)]) }
  exact h.2.2.2 (by decide) (by decide) _ _ rfl rfl rfl

lemma sanitizeNodes_all_isText :
    ∀ ns : List HtmlNode, (sanitizeNodes [] [] ns).all HtmlNode.isText = true
  | [] => by simp [sanitizeNodes]
  | .text s :: rest => by
    simp [sanitizeNodes, HtmlNode.isText, sanitizeNodes_all_isText rest]
  | .element tag attrs children :: rest => by
    simp [sanitizeNodes, List.all_append,
      sanitizeNodes_all_isText children, sanitizeNodes_all_isText rest]

/-- C10: for every input document, `sanitizeHtml` (DOMPurify with empty
`ALLOWED_TAGS` and `ALLOWED_ATTR`) returns only text nodes — no HTML tag
and no HTML attribute survives, so the output is plain text. -/
theorem sanitizeHtml_plain_text (doc : List HtmlNode) :
    (sanitizeHtml doc).all HtmlNode.isText = true :=
  sanitizeNodes_all_isText doc

end Clipsmith
